import Mathlib

/-!
Verification of the MCP client core of this repository
(`simple_mcp_client.py` and `litellm_mcp_service.py`).

The Python code is shallowly embedded: the mutable `SimpleMCPClient`
object becomes an explicit `ClientState` record threaded through the
operations, the environment's behaviour (subprocess handshake and
tools/list responses, the LLM collaborator's answer, whether a
`terminate()` call raises) becomes explicit parameters, and every
JSON-RPC message written to a server's stdin is recorded in a `sent`
trace so that the wire behaviour is observable.
-/

namespace MCP

/-- An opaque parameter-schema blob. `emptyObject` is the literal default
`tool.get("inputSchema", \x7b\x7d)` used by `_load_tools`; `blob` is a schema
declared by the server, passed through unmodified. -/
inductive Schema where
  | emptyObject
  | blob (s : String)
  deriving DecidableEq

/-- One raw entry of a server's `tools/list` result. `name = none` models a
JSON object with no `name` key, so that `tool["name"]` raises `KeyError`;
the other two fields model `tool.get("description", "")` and
`tool.get("inputSchema", ...)` lookups with their defaults. -/
structure RawTool where
  name : Option String
  description : Option String := none
  inputSchema : Option Schema := none
  deriving DecidableEq

/-- One entry of the catalog built by `_load_tools` (OpenAI format):
the Python dict `\x7b"type": "function", "function": \x7b"name": ..,
"description": .., "parameters": ..\x7d\x7d`. The dict built by `_load_tools`
carries no `server_name` key, so `entry.get("server_name")` yields `None`;
that absent key is modelled by the optional field `server_name`, which
`_load_tools` leaves at `none`. -/
structure OpenAITool where
  ttype : String
  fname : String
  fdescription : String
  fparameters : Schema
  server_name : Option String := none
  deriving DecidableEq

/-- A subprocess handle as the embedding sees it: `returncode = none` means
the process has not been waited on (Python `process.returncode is None`);
`terminateFails` is the environment's choice of whether `process.terminate()`
raises (e.g. `ProcessLookupError`) on this handle. -/
structure Process where
  pid : Nat
  returncode : Option Int := none
  terminateFails : Bool := false
  deriving DecidableEq

/-- One JSON-RPC message written to a server's stdin: target server,
`method` field, and the `id` field (`none` for notifications). -/
structure SentMsg where
  server : String
  method : String
  id : Option Nat
  deriving DecidableEq

/-- The mutable state of a `SimpleMCPClient` instance: `self.processes`,
`self.tools_cache` (Python dicts, modelled as insertion-ordered association
lists) and the single client-level `self.request_id` counter. `sent` is the
observable trace of messages written to server stdins. -/
structure ClientState where
  processes : List (String × Process) := []
  tools_cache : List (String × List OpenAITool) := []
  request_id : Nat := 0
  sent : List SentMsg := []
  deriving DecidableEq

/-- The state of a freshly constructed client. -/
def initialState : ClientState := {}

/-- Python dict assignment `d[k] = v`: replace in place if the key exists,
append otherwise. -/
def alistSet (l : List (String × α)) (k : String) (v : α) : List (String × α) :=
  match l with
  | [] => [(k, v)]
  | (k0, v0) :: rest => if k0 = k then (k0, v) :: rest else (k0, v0) :: alistSet rest k v

/-- Python dict lookup `d.get(k)`. -/
def alistLookup (l : List (String × α)) (k : String) : Option α :=
  match l with
  | [] => none
  | (k0, v) :: rest => if k0 = k then some v else alistLookup rest k

/-- `SimpleMCPClient._next_request_id`: increment the client-level counter
and return the new value. -/
def nextRequestId (st : ClientState) : Nat × ClientState :=
  let st1 := { st with request_id := st.request_id + 1 }
  (st1.request_id, st1)

/-- The environment's answer to a `tools/list` request: `noData` models an
empty `readline`, `unexpected` models a parsed response without
`result.tools` (or a line that fails to parse, which raises and is caught),
`tools` carries the raw list of a well-shaped response. -/
inductive ToolsListResponse where
  | noData
  | unexpected
  | tools (ts : List RawTool)
  deriving DecidableEq

/-- The body of the conversion loop in `_load_tools` for one raw entry whose
`name` key is present: build the OpenAI-format dict. No `server_name` key is
written. -/
def convertTool (t : RawTool) (n : String) : OpenAITool :=
  { ttype := "function", fname := n, fdescription := t.description.getD "",
    fparameters := t.inputSchema.getD .emptyObject, server_name := none }

/-- The conversion loop of `_load_tools`: `tool["name"]` raises `KeyError`
when the key is missing, which aborts the whole loop (result `none`);
otherwise every entry is converted in declared order. -/
def convertTools : List RawTool → Option (List OpenAITool)
  | [] => some []
  | t :: ts =>
    match t.name with
    | none => none
    | some n =>
      match convertTools ts with
      | none => none
      | some rest => some (convertTool t n :: rest)

/-- `SimpleMCPClient._load_tools server`: send a `tools/list` request with
the next request id, then fill `tools_cache[server]`: with the converted
list on a well-shaped response whose every entry has a `name`, and with `[]`
on no data, on an unexpected response shape, and on any raised exception
(including the `KeyError` of a nameless entry) — the `except` clause sets
`self.tools_cache[server_name] = []`. -/
def loadTools (st : ClientState) (server : String) (resp : ToolsListResponse) : ClientState :=
  let (rid, st1) := nextRequestId st
  let st2 := { st1 with sent := st1.sent ++ [SentMsg.mk server "tools/list" (some rid)] }
  match resp with
  | .tools ts =>
    match convertTools ts with
    | some ots => { st2 with tools_cache := alistSet st2.tools_cache server ots }
    | none => { st2 with tools_cache := alistSet st2.tools_cache server [] }
  | .noData => { st2 with tools_cache := alistSet st2.tools_cache server [] }
  | .unexpected => { st2 with tools_cache := alistSet st2.tools_cache server [] }

/-- The environment's answer to the `initialize` request: `noData` models an
empty `readline` after the timeout-bounded wait, `malformed` a line that
`json.loads` rejects (raises, caught by the `except`), `noResult` a parsed
JSON object without a `result` key, `hasResult` a successful handshake. -/
inductive InitResponse where
  | noData
  | malformed
  | noResult
  | hasResult
  deriving DecidableEq

/-- `SimpleMCPClient.connect_to_server` after a successful spawn: send
`initialize` with the next request id; unless the response carries a
`result` key, return `False` with the process never stored and the tool
list never requested. On success, send the `notifications/initialized`
notification (no id), store the process in `self.processes`, and load the
server's tools. -/
def connectToServer (st : ClientState) (server : String) (proc : Process)
    (initResp : InitResponse) (toolsResp : ToolsListResponse) : Bool × ClientState :=
  let (iid, st1) := nextRequestId st
  let st2 := { st1 with sent := st1.sent ++ [SentMsg.mk server "initialize" (some iid)] }
  match initResp with
  | .hasResult =>
    let st3 := { st2 with sent := st2.sent ++ [SentMsg.mk server "notifications/initialized" none] }
    let st4 := { st3 with processes := alistSet st3.processes server proc }
    (true, loadTools st4 server toolsResp)
  | .noData => (false, st2)
  | .malformed => (false, st2)
  | .noResult => (false, st2)

/-- `SimpleMCPClient.get_all_tools`: concatenate every server's cached tool
list in `tools_cache` iteration order. -/
def get_all_tools (st : ClientState) : List OpenAITool :=
  st.tools_cache.foldl (fun acc p => acc ++ p.2) []

/-- `SimpleMCPClient.cleanup` over the remaining process list: for each
stored process whose `returncode` is `None`, call `terminate()` then
`wait()`. The loop body has no exception handler, so a raising `terminate()`
propagates out of `cleanup` and the remaining processes are not visited. -/
def cleanupGo : List (String × Process) → Except String (List (String × Process))
  | [] => .ok []
  | (n, p) :: rest =>
    if p.returncode = none then
      if p.terminateFails then .error ("terminate raised for " ++ n)
      else (cleanupGo rest).map (fun r => (n, { p with returncode := some 0 }) :: r)
    else (cleanupGo rest).map (fun r => (n, p) :: r)

/-- `SimpleMCPClient.cleanup`: iterate over `self.processes.items()`.
`Except.error` models an exception escaping `cleanup` to its caller. -/
def cleanup (st : ClientState) : Except String ClientState :=
  (cleanupGo st.processes).map (fun ps => { st with processes := ps })

/-- The effect of `cleanup` on the process table when no termination raises:
every process with `returncode is None` is terminated and waited on. -/
def terminateAll (ps : List (String × Process)) : List (String × Process) :=
  ps.map (fun q => (q.1, if q.2.returncode = none then { q.2 with returncode := some 0 } else q.2))

/-- `LiteLLMMCPService._extract_server_name_from_tool`: scan the catalog for
the first entry whose `function.name` equals the requested tool name and
return that entry's `server_name` value (`entry.get("server_name")`). -/
def extract_server_name_from_tool (toolName : String) (tools : List OpenAITool) : Option String :=
  match tools.find? (fun t => t.fname == toolName) with
  | some t => t.server_name
  | none => none

/-- One line of the tool enumeration in `_create_system_prompt`:
`f"- \x7btool.get(*server_name*, *unknown*)\x7d:\x7bname\x7d - \x7bdescription\x7d"`. -/
def toolDescLine (t : OpenAITool) : String :=
  "- " ++ (t.server_name.getD "unknown") ++ ":" ++ t.fname ++ " - " ++ t.fdescription

/-- `LiteLLMMCPService._create_system_prompt`: the fixed instruction text
with the tool-description lines joined by `chr(10)` in catalog order. -/
def create_system_prompt (tools : List OpenAITool) : String :=
  "You are an AI assistant that can use MCP (Model Context Protocol) tools to help process and enhance user input.\n\nAvailable tools:\n"
    ++ String.intercalate "\n" (tools.map toolDescLine)
    ++ "\n\nWhen the user provides input, analyze if any of these tools would be helpful for processing, enhancing, or responding to their request. If so, call the appropriate tool. If not, simply acknowledge their input.\n\nFocus on being helpful and only use tools when they would genuinely improve the response or fulfill the user\x27s request."

/-- An item of a structured tool-call result content list as inspected by
`_extract_text_from_result`: `itype = none` models an item without a `type`
attribute. -/
structure TextItem where
  itype : Option String
  text : String
  deriving DecidableEq

/-- The duck-typed value passed to `_extract_text_from_result`, by the
attribute shape the function inspects: a plain Python `str` (which has no
`content` attribute), an object without a `content` attribute, or an object
whose `content` is a list / an object with a `text` attribute / a `str`. -/
inductive CallResultVal where
  | plainStr (s : String)
  | withoutContent
  | withContentList (items : List TextItem)
  | withContentText (t : String)
  | withContentStr (s : String)
  deriving DecidableEq

/-- `LiteLLMMCPService._extract_text_from_result`: guarded by
`hasattr(call_result, "content") and call_result.content` (so an absent
`content` attribute, an empty list and an empty string all fall through to
`return None`); a content list yields the `text` of its first item whose
`type` attribute is `"text"`, an object content with a `text` attribute
yields that text, a `str` content is returned as is. -/
def extract_text_from_result : CallResultVal → Option String
  | .plainStr _ => none
  | .withoutContent => none
  | .withContentList items =>
    if items = [] then none
    else
      match items.find? (fun i => i.itype == some "text") with
      | some i => some i.text
      | none => none
  | .withContentText t => some t
  | .withContentStr s => if s = "" then none else some s

/-- The outcome of the `litellm.acompletion` call as
`process_transcript_with_llm` observes it: either some step raises (the
message of the caught exception), or a message arrives whose `tool_calls`
attribute is absent (`none`), empty, or a list of tool-call names
(`tool_call.function.name`). -/
inductive LLMOutcome where
  | raises (msg : String)
  | message (tool_calls : Option (List String))
  deriving DecidableEq

/-- The `ToolCallResult` dataclass of `litellm_mcp_service.py`. -/
structure ToolCallResult where
  success : Bool
  content : String
  error : Option String := none
  tool_name : Option String := none
  server_name : Option String := none
  deriving DecidableEq

/-- Python truthiness test `if not server_name or server_name not in
self.mcp_client.processes` (negated): `None` and `""` are falsy. -/
def serverAvailable (st : ClientState) (o : Option String) : Bool :=
  match o with
  | none => false
  | some s => !(s == "") && (alistLookup st.processes s).isSome

/-- How an f-string renders an optional server name: `None` becomes the
text `None`. -/
def pyShowOptStr : Option String → String
  | none => "None"
  | some s => s

/-- Python `result_text or transcript`: `None` and `""` are falsy. -/
def pyOr (o : Option String) (t : String) : String :=
  match o with
  | none => t
  | some s => if s = "" then t else s

/-- `LiteLLMMCPService.process_transcript_with_llm`: with an empty catalog,
return failure with the original transcript before the collaborator is
invoked; otherwise delegate to the collaborator (its behaviour is the
`outcome` parameter; a raise anywhere lands in the `except` clause, which
returns failure with the transcript and `str(e)`). A message without tool
calls returns success with the transcript. For a tool call, resolve the
owning server; an unresolvable or not-live server returns failure naming it;
otherwise the stubbed execution produces the placeholder string
`"Tool call detected: ..."`, whose extracted text is `None`, so the content
falls back to the transcript. -/
def process_transcript_with_llm (st : ClientState) (transcript : String)
    (outcome : LLMOutcome) : ToolCallResult :=
  let tools := get_all_tools st
  if tools.isEmpty then
    { success := false, content := transcript, error := some "No MCP tools available" }
  else
    match outcome with
    | .raises msg => { success := false, content := transcript, error := some msg }
    | .message tcs =>
      match tcs with
      | none => { success := true, content := transcript }
      | some [] => { success := true, content := transcript }
      | some (tc :: _) =>
        let sname := extract_server_name_from_tool tc tools
        if serverAvailable st sname then
          let call_result := CallResultVal.plainStr ("Tool call detected: " ++ tc)
          let result_text := extract_text_from_result call_result
          { success := true, content := pyOr result_text transcript,
            tool_name := some tc, server_name := sname }
        else
          { success := false, content := transcript,
            error := some ("Server \x27" ++ pyShowOptStr sname ++ "\x27 not available for tool call") }

/-- A client-level operation that sends requests: a connection attempt to a
server (with the environment's handshake and tools responses) or a tools
(re)load on an already connected server. -/
inductive ClientOp where
  | connect (server : String) (proc : Process) (ir : InitResponse) (tr : ToolsListResponse)
  | load (server : String) (tr : ToolsListResponse)
  deriving DecidableEq

/-- Apply one client operation to the state. -/
def applyOp (st : ClientState) : ClientOp → ClientState
  | .connect n p ir tr => (connectToServer st n p ir tr).2
  | .load n tr => loadTools st n tr

/-- Run a sequence of client operations from a state. -/
def runOps : ClientState → List ClientOp → ClientState
  | st, [] => st
  | st, op :: ops => runOps (applyOp st op) ops

/-- The request ids carried by a message trace, in send order. -/
def sentIds (msgs : List SentMsg) : List Nat :=
  msgs.filterMap (fun m => m.id)

/-- The request ids of the messages a given server received, in send order. -/
def sentIdsFor (server : String) (msgs : List SentMsg) : List Nat :=
  sentIds (msgs.filter (fun m => m.server == server))

lemma alistLookup_alistSet_self (l : List (String × α)) (k : String) (v : α) :
    alistLookup (alistSet l k v) k = some v := by
  induction l with
  | nil => simp [alistSet, alistLookup]
  | cons p rest ih =>
    obtain ⟨k0, v0⟩ := p
    by_cases hk : k0 = k <;> simp [alistSet, alistLookup, hk, ih]

lemma convertTools_eq_none_of_missing_name (ts : List RawTool)
    (h : ts.any (fun t => t.name.isNone) = true) : convertTools ts = none := by
  induction ts with
  | nil => simp at h
  | cons t rest ih =>
    rcases List.any_eq_true.mp h with ⟨u, hu, hname⟩
    rcases List.mem_cons.mp hu with rfl | hmem
    · cases hn : u.name with
      | none => simp [convertTools, hn]
      | some n => rw [hn] at hname; simp at hname
    · have : convertTools rest = none := ih (List.any_eq_true.mpr ⟨u, hmem, hname⟩)
      cases hn : t.name with
      | none => simp [convertTools, hn]
      | some n => simp [convertTools, hn, this]

lemma process_content_eq_transcript (st : ClientState) (t : String) (o : LLMOutcome) :
    (process_transcript_with_llm st t o).content = t := by
  unfold process_transcript_with_llm
  cases o with
  | raises m => by_cases h : (get_all_tools st).isEmpty <;> simp [h]
  | message tcs =>
    by_cases h : (get_all_tools st).isEmpty
    · simp [h]
    · cases tcs with
      | none => simp [h]
      | some l =>
        cases l with
        | nil => simp [h]
        | cons tc rest =>
          by_cases hs : serverAvailable st (extract_server_name_from_tool tc (get_all_tools st)) <;>
            simp [h, hs, pyOr, extract_text_from_result]

lemma cleanupGo_ok_of_no_failure (ps : List (String × Process))
    (h : ps.all (fun q => q.2.returncode.isSome || !q.2.terminateFails) = true) :
    cleanupGo ps = .ok (terminateAll ps) := by
  induction ps with
  | nil => rfl
  | cons q rest ih =>
    rcases List.all_eq_true.mp h q (List.mem_cons_self _ _) with hq
    have hrest : cleanupGo rest = .ok (terminateAll rest) :=
      ih (List.all_eq_true.mpr fun r hr => List.all_eq_true.mp h r (List.mem_cons_of_mem _ hr))
    obtain ⟨n, p⟩ := q
    cases hrc : p.returncode with
    | none =>
      have hfail : p.terminateFails = false := by
        rw [hrc] at hq; simpa using hq
      simp [cleanupGo, terminateAll, hrc, hfail, hrest, Except.map]
    | some c => simp [cleanupGo, terminateAll, hrc, hrest, Except.map]

lemma cleanupGo_id_of_all_done (ps : List (String × Process))
    (h : ∀ q ∈ ps, (q.2.returncode).isSome = true) : cleanupGo ps = .ok ps := by
  induction ps with
  | nil => rfl
  | cons q rest ih =>
    have hq := h q (List.mem_cons_self _ _)
    have hrest := ih fun r hr => h r (List.mem_cons_of_mem _ hr)
    obtain ⟨n, p⟩ := q
    cases hrc : p.returncode with
    | none => rw [hrc] at hq; simp at hq
    | some c => simp [cleanupGo, hrc, hrest, Except.map]

lemma terminateAll_all_done (ps : List (String × Process)) :
    ∀ q ∈ terminateAll ps, (q.2.returncode).isSome = true := by
  intro q hq
  rcases List.mem_map.mp hq with ⟨r, _, rfl⟩
  cases hrc : r.2.returncode with
  | none => simp [hrc]
  | some c => simp [hrc]

/-- The wire-trace invariant for the request-id analysis: the ids already
sent are strictly increasing and all bounded by the client counter. -/
def IdTraceOK (st : ClientState) : Prop :=
  List.Pairwise (· < ·) (sentIds st.sent) ∧ ∀ i ∈ sentIds st.sent, i ≤ st.request_id

lemma sentIds_append (a b : List SentMsg) : sentIds (a ++ b) = sentIds a ++ sentIds b := by
  simp [sentIds]

lemma idTraceOK_send (st : ClientState) (server method : String) (h : IdTraceOK st) :
    IdTraceOK { st with request_id := st.request_id + 1,
                        sent := st.sent ++ [SentMsg.mk server method (some (st.request_id + 1))] } := by
  obtain ⟨hp, hb⟩ := h
  constructor
  · show List.Pairwise (· < ·) (sentIds (st.sent ++ [SentMsg.mk server method (some (st.request_id + 1))]))
    rw [sentIds_append]
    refine List.pairwise_append.mpr ⟨hp, List.pairwise_singleton _ _, ?_⟩
    intro a ha b hbm
    have hb1 : b = st.request_id + 1 := by simpa [sentIds] using hbm
    have := hb a ha
    omega
  · intro i hi
    rw [sentIds_append] at hi
    rcases List.mem_append.mp hi with h1 | h2
    · have := hb i h1; simp; omega
    · have : i = st.request_id + 1 := by simpa [sentIds] using h2
      simp [this]

lemma idTraceOK_notify (st : ClientState) (server method : String) (h : IdTraceOK st) :
    IdTraceOK { st with sent := st.sent ++ [SentMsg.mk server method none] } := by
  obtain ⟨hp, hb⟩ := h
  constructor
  · show List.Pairwise (· < ·) (sentIds (st.sent ++ [SentMsg.mk server method none]))
    rw [sentIds_append]
    simpa [sentIds] using hp
  · intro i hi
    rw [sentIds_append] at hi
    rcases List.mem_append.mp hi with h1 | h2
    · exact hb i h1
    · simp [sentIds] at h2

lemma idTraceOK_loadTools (st : ClientState) (server : String) (tr : ToolsListResponse)
    (h : IdTraceOK st) : IdTraceOK (loadTools st server tr) := by
  have h1 := idTraceOK_send st server "tools/list" h
  unfold loadTools nextRequestId
  cases tr with
  | tools ts => cases hc : convertTools ts <;> simp [hc] <;> exact h1
  | noData => exact h1
  | unexpected => exact h1

lemma idTraceOK_connect (st : ClientState) (server : String) (p : Process)
    (ir : InitResponse) (tr : ToolsListResponse) (h : IdTraceOK st) :
    IdTraceOK (connectToServer st server p ir tr).2 := by
  have h1 := idTraceOK_send st server "initialize" h
  cases ir with
  | hasResult =>
    refine idTraceOK_loadTools _ server tr ?_
    exact idTraceOK_notify _ server "notifications/initialized" h1
  | noData => exact h1
  | malformed => exact h1
  | noResult => exact h1

lemma idTraceOK_runOps (ops : List ClientOp) (st : ClientState) (h : IdTraceOK st) :
    IdTraceOK (runOps st ops) := by
  induction ops generalizing st with
  | nil => exact h
  | cons op rest ih =>
    refine ih _ ?_
    cases op with
    | connect n p ir tr => exact idTraceOK_connect st n p ir tr h
    | load n tr => exact idTraceOK_loadTools st n tr h

/-- The process handle of the server `s1` of the worked scenario. -/
def procS1 : Process := { pid := 101 }

/-- The raw tool list entry of the worked scenario:
`\x7bname: "echo", description: "x", inputSchema: \x7b\x7d\x7d`. -/
def echoRaw : RawTool :=
  { name := some "echo", description := some "x", inputSchema := some .emptyObject }

/-- The client state after a fresh client successfully connects to the
single server `s1`, which advertises the one tool `echo`. -/
def stEcho : ClientState :=
  (connectToServer initialState "s1" procS1 .hasResult (.tools [echoRaw])).2

/-- C1: after a successful connection to server `s1` advertising `echo`,
`s1` is live (present in the process table) and `echo` is in the aggregated
catalog returned by `get_all_tools`, yet `_extract_server_name_from_tool`
resolves `echo` to `none`: `_load_tools` stores catalog entries without a
`server_name` key, so ownership resolution fails (and the subsequent
process-table check fails) for every tool in the catalog, contradicting the
claim that resolution always returns a live server. -/
theorem c1_resolution_always_dangles :
    alistLookup stEcho.processes "s1" = some procS1 ∧
    (get_all_tools stEcho).map (fun t => t.fname) = ["echo"] ∧
    extract_server_name_from_tool "echo" (get_all_tools stEcho) = none := by
  decide

/-- C2: the sub-catalog for server `s1` does contain exactly one entry with
qualified identity `("s1", "echo")` (the cache key is `s1` and the entry's
function name is `echo`), but the system-instruction enumeration line built
from the aggregated catalog is `- unknown:echo - x`, not `- s1:echo - x`:
since the entries carry no `server_name` key, `_create_system_prompt` falls
back to the default `"unknown"` for every tool. -/
theorem c2_prompt_enumerates_unknown :
    alistLookup stEcho.tools_cache "s1" = some [convertTool echoRaw "echo"] ∧
    (convertTool echoRaw "echo").fname = "echo" ∧
    (convertTool echoRaw "echo").fdescription = "x" ∧
    (get_all_tools stEcho).map toolDescLine = ["- unknown:echo - x"] ∧
    ("- unknown:echo - x" : String) ≠ "- s1:echo - x" := by
  decide

/-- C5 counterexample: on a fresh client with an empty catalog the result of
`process_transcript_with_llm` has `success = false` and echoes the input,
but its error string is `"No MCP tools available"`, not the
`"no tools available"` stated by the claim. -/
theorem c5_counterexample :
    process_transcript_with_llm initialState "hello" (.message none) =
      { success := false, content := "hello", error := some "No MCP tools available" } ∧
    (some "No MCP tools available" : Option String) ≠ some "no tools available" := by
  decide

/-- C5 (amended): with an empty aggregated catalog,
`process_transcript_with_llm` returns `success = false`, error
`"No MCP tools available"`, and the original transcript as content, and its
result does not depend on the LLM collaborator's behaviour (the collaborator
is never invoked: the empty-catalog branch returns first). -/
theorem c5_empty_catalog_degrades (st : ClientState) (t : String) (o o' : LLMOutcome)
    (h : get_all_tools st = []) :
    process_transcript_with_llm st t o =
      { success := false, content := t, error := some "No MCP tools available" } ∧
    process_transcript_with_llm st t o = process_transcript_with_llm st t o' := by
  have hi : (get_all_tools st).isEmpty = true := by simp [h]
  unfold process_transcript_with_llm
  cases o <;> cases o' <;> simp [hi]

/-- Witness for C5 (amended) at the fresh client and transcript `"hi"`. -/
theorem c5_empty_catalog_degrades_witness :
    process_transcript_with_llm initialState "hi" (.raises "boom") =
      { success := false, content := "hi", error := some "No MCP tools available" } :=
  (c5_empty_catalog_degrades initialState "hi" (.raises "boom") (.message none) rfl).1

/-- C6: whatever the collaborator does (raises, returns plain text, or
requests a tool call that may or may not resolve), every result of
`process_transcript_with_llm` with `success = false` carries the original
transcript as content together with an error value. The embedding of
`process_transcript_with_llm` is a total function — the source wraps the
whole body in `try/except Exception`, whose handler returns a
`ToolCallResult` instead of re-raising, so no fault propagates. -/
theorem c6_failures_echo_input (st : ClientState) (t : String) (o : LLMOutcome)
    (h : (process_transcript_with_llm st t o).success = false) :
    (process_transcript_with_llm st t o).content = t ∧
    (process_transcript_with_llm st t o).error.isSome = true := by
  refine ⟨process_content_eq_transcript st t o, ?_⟩
  unfold process_transcript_with_llm at h ⊢
  by_cases hi : (get_all_tools st).isEmpty
  · simp [hi]
  · cases o with
    | raises m => simp [hi]
    | message tcs =>
      cases tcs with
      | none => simp [hi] at h
      | some l =>
        cases l with
        | nil => simp [hi] at h
        | cons tc rest =>
          by_cases hs : serverAvailable st (extract_server_name_from_tool tc (get_all_tools st))
          · simp [hi, hs] at h
          · simp [hi, hs]

/-- Witness for C6: the unresolved-server failure on the worked scenario
(the collaborator requests `echo`, whose owner resolution yields `None`). -/
theorem c6_failures_echo_input_witness :
    (process_transcript_with_llm stEcho "hi" (.message (some ["echo"]))).content = "hi" ∧
    (process_transcript_with_llm stEcho "hi" (.message (some ["echo"]))).error.isSome = true :=
  c6_failures_echo_input stEcho "hi" (.message (some ["echo"])) (by decide)

/-- C10: every branch of `process_transcript_with_llm` returns the original
transcript as content: in particular the stubbed tool execution produces the
plain string `"Tool call detected: ..."`, from which
`_extract_text_from_result` extracts nothing (a `str` has no `content`
attribute), so `result_text or transcript` falls back to the transcript. -/
theorem c10_content_always_original (st : ClientState) (t : String) (o : LLMOutcome)
    (s : String) :
    (process_transcript_with_llm st t o).content = t ∧
    extract_text_from_result (.plainStr s) = none :=
  ⟨process_content_eq_transcript st t o, rfl⟩

/-- A live process handle used in the request-id runs. -/
def procA : Process := { pid := 11 }

/-- A second live process handle used in the request-id runs. -/
def procB : Process := { pid := 12 }

/-- A run in which the fresh client connects to server `b` alone. -/
def opsOnlyB : List ClientOp := [.connect "b" procB .hasResult (.tools [])]

/-- A run in which the fresh client connects to server `a` and then to
server `b`, with `b` receiving exactly the same messages as in `opsOnlyB`. -/
def opsAThenB : List ClientOp :=
  [.connect "a" procA .hasResult (.tools []), .connect "b" procB .hasResult (.tools [])]

/-- C3 counterexample: the ids server `b` receives are not a function of
`b`'s own connection history — connecting `b` on a fresh client sends it
ids 1 and 2, while connecting `a` first sends `b` ids 3 and 4, because
`self.request_id` is a single counter owned by the client and shared by all
connections, not state scoped to the connection. -/
theorem c3_counterexample :
    sentIdsFor "b" (runOps initialState opsOnlyB).sent = [1, 2] ∧
    sentIdsFor "b" (runOps initialState opsAThenB).sent = [3, 4] ∧
    ([1, 2] : List Nat) ≠ [3, 4] := by
  decide

/-- C3 (amended): the request ids carried by the messages of any run of
client operations are strictly pairwise increasing in send order — so ids
are strictly increasing and never reused within each connection's lifetime
as well — but they are drawn from the client-level `self.request_id`
counter shared by all connections. -/
theorem c3_ids_strictly_increasing (ops : List ClientOp) :
    List.Pairwise (· < ·) (sentIds (runOps initialState ops).sent) :=
  (idTraceOK_runOps ops initialState ⟨List.Pairwise.nil, by simp [sentIds, initialState]⟩).1

/-- First duplicate declaration of the tool `echo` in one raw list. -/
def dupRaw1 : RawTool := { name := some "echo", description := some "one" }

/-- Second duplicate declaration of the tool `echo` in one raw list. -/
def dupRaw2 : RawTool := { name := some "echo", description := some "two" }

/-- The client state after loading, for server `s1`, a raw list that
declares `echo` twice. -/
def stDup : ClientState := loadTools initialState "s1" (.tools [dupRaw1, dupRaw2])

/-- C4 counterexample: when a server's raw list declares `echo` twice, both
declarations are kept in that server's sub-catalog — two entries share the
qualified pair `("s1", "echo")`, and the sub-catalog is not the single
later declaration the claim requires. -/
theorem c4_counterexample :
    alistLookup stDup.tools_cache "s1" =
      some [convertTool dupRaw1 "echo", convertTool dupRaw2 "echo"] ∧
    (convertTool dupRaw1 "echo").fname = (convertTool dupRaw2 "echo").fname ∧
    [convertTool dupRaw1 "echo", convertTool dupRaw2 "echo"] ≠ [convertTool dupRaw2 "echo"] := by
  decide

/-- C4 (amended): after loading a server's tool list, that server's
sub-catalog is exactly the conversion of the raw list in declared order —
duplicates included, with no deduplication (and `[]` when conversion fails);
a (re)load replaces the server's entire previous sub-catalog, so later
loads, not later entries within one list, win. -/
theorem c4_subcatalog_mirrors_raw_list (st : ClientState) (server : String)
    (ts : List RawTool) :
    alistLookup (loadTools st server (.tools ts)).tools_cache server =
      some ((convertTools ts).getD []) := by
  unfold loadTools nextRequestId
  cases hc : convertTools ts <;> simp [hc, alistLookup_alistSet_self]

/-- C7: whenever any entry of a server's raw tool list lacks a `name` field,
`tool["name"]` raises `KeyError`, the whole conversion loop is abandoned,
and the `except` clause records an empty sub-catalog for that server — zero
tools, never a partial prefix of the valid entries, and the failure is
swallowed (`loadTools` is a total function: `_load_tools` catches every
exception). -/
theorem c7_missing_name_drops_batch (st : ClientState) (server : String)
    (ts : List RawTool) (h : ts.any (fun t => t.name.isNone) = true) :
    alistLookup (loadTools st server (.tools ts)).tools_cache server = some [] := by
  unfold loadTools nextRequestId
  simp [convertTools_eq_none_of_missing_name ts h, alistLookup_alistSet_self]

/-- Witness for C7: a batch with one valid entry followed by a nameless
entry contributes an empty sub-catalog. -/
theorem c7_missing_name_drops_batch_witness :
    alistLookup
      (loadTools initialState "s1"
        (.tools [{ name := some "good" }, { name := none }])).tools_cache "s1" = some [] :=
  c7_missing_name_drops_batch initialState "s1"
    [{ name := some "good" }, { name := none }] (by decide)

/-- C8: a connection attempt whose `initialize` response carries no `result`
field returns `False` and leaves the process table and the tool cache
exactly as they were — the server is never stored as live and contributes
nothing to the catalog — and the only message it ever received is the
`initialize` request itself: no `tools/list` request is sent. -/
theorem c8_failed_handshake_contributes_nothing (st : ClientState) (server : String)
    (p : Process) (ir : InitResponse) (tr : ToolsListResponse) (h : ir ≠ .hasResult) :
    (connectToServer st server p ir tr).1 = false ∧
    (connectToServer st server p ir tr).2.processes = st.processes ∧
    (connectToServer st server p ir tr).2.tools_cache = st.tools_cache ∧
    (connectToServer st server p ir tr).2.sent =
      st.sent ++ [SentMsg.mk server "initialize" (some (st.request_id + 1))] := by
  cases ir with
  | hasResult => exact absurd rfl h
  | noData => exact ⟨rfl, rfl, rfl, rfl⟩
  | malformed => exact ⟨rfl, rfl, rfl, rfl⟩
  | noResult => exact ⟨rfl, rfl, rfl, rfl⟩

/-- Witness for C8: a handshake response without `result` on a fresh client. -/
theorem c8_failed_handshake_contributes_nothing_witness :
    (connectToServer initialState "s1" procS1 .noResult (.tools [echoRaw])).1 = false ∧
    (connectToServer initialState "s1" procS1 .noResult (.tools [echoRaw])).2.processes =
      initialState.processes ∧
    (connectToServer initialState "s1" procS1 .noResult (.tools [echoRaw])).2.tools_cache =
      initialState.tools_cache ∧
    (connectToServer initialState "s1" procS1 .noResult (.tools [echoRaw])).2.sent =
      initialState.sent ++ [SentMsg.mk "s1" "initialize" (some (initialState.request_id + 1))] :=
  c8_failed_handshake_contributes_nothing initialState "s1" procS1 .noResult
    (.tools [echoRaw]) (by decide)

/-- A live process whose `terminate()` raises (e.g. it died between the
`returncode` check and the signal). -/
def procRaising : Process := { pid := 21, returncode := none, terminateFails := true }

/-- A live process whose `terminate()` succeeds. -/
def procHealthy : Process := { pid := 22, returncode := none, terminateFails := false }

/-- A manager owning a process whose termination fails, followed by a
healthy live process. -/
def stTwoProcs : ClientState := { processes := [("a", procRaising), ("b", procHealthy)] }

/-- C9 counterexample: `cleanup` has no exception handler, so when
terminating the first process raises, the exception propagates to the
caller and the remaining live process `b` is never terminated — `cleanup`
neither completes nor isolates the failure, contrary to the claim. -/
theorem c9_counterexample :
    cleanup stTwoProcs = .error "terminate raised for a" := by
  rfl

/-- C9 (amended): provided no live process's `terminate()` raises, `cleanup`
completes without raising — in particular on a manager with zero live
connections — terminating and waiting on every process whose `returncode`
is `None`; and it is then idempotent: a second call finds every
`returncode` set, skips every process, and succeeds without change. A
raising `terminate()`, however, propagates (see the counterexample). -/
theorem c9_cleanup_completes (st : ClientState)
    (h : st.processes.all (fun q => q.2.returncode.isSome || !q.2.terminateFails) = true) :
    cleanup st = .ok { st with processes := terminateAll st.processes } ∧
    cleanup { st with processes := terminateAll st.processes } =
      .ok { st with processes := terminateAll st.processes } := by
  constructor
  · unfold cleanup
    rw [cleanupGo_ok_of_no_failure st.processes h]
    rfl
  · unfold cleanup
    rw [show ({ st with processes := terminateAll st.processes } : ClientState).processes =
          terminateAll st.processes from rfl,
        cleanupGo_id_of_all_done (terminateAll st.processes) (terminateAll_all_done st.processes)]
    rfl

/-- Witness for C9 (amended): a manager owning one live healthy process and
one already-exited process. -/
theorem c9_cleanup_completes_witness :
    cleanup { processes := [("a", procHealthy), ("b", { pid := 23, returncode := some 0 })] } =
      .ok { processes :=
        terminateAll [("a", procHealthy), ("b", { pid := 23, returncode := some 0 })] } ∧
    cleanup { processes :=
        terminateAll [("a", procHealthy), ("b", { pid := 23, returncode := some 0 })] } =
      .ok { processes :=
        terminateAll [("a", procHealthy), ("b", { pid := 23, returncode := some 0 })] } :=
  c9_cleanup_completes
    { processes := [("a", procHealthy), ("b", { pid := 23, returncode := some 0 })] } (by decide)

end MCP
